import Mathlib

/-!
# Verification of the Earth orientation controller

Shallow embedding of `src/components/Earth/Earth.tsx`: the orientation
controller of a rotating 3D globe.  The component keeps a quaternion
orientation, a drag state and an angular velocity, updated by pointer
events (`onPointerDown`, `onPointerMove`, `onPointerUp`) and a per-frame
update (`useFrame`).  The three.js vector/quaternion/matrix operations the
component calls (`Vector3.normalize`, `Vector3.applyQuaternion`,
`Quaternion.setFromAxisAngle`, `Quaternion.multiplyQuaternions`,
`Quaternion.premultiply`, `Quaternion.slerp`, `Quaternion.normalize`,
`Quaternion.setFromEuler` with order XYZ, `Quaternion.setFromRotationMatrix`,
`Matrix4.makeRotationAxis`, `MathUtils.degToRad`) are embedded here
following the three.js library sources, with JavaScript numbers modelled
as real numbers.
-/

namespace EarthModel

noncomputable section

open Real

/-- A 3D vector, mirroring `THREE.Vector3`. -/
structure Vec3 where
  x : ℝ
  y : ℝ
  z : ℝ

/-- `Vector3.length`. -/
def Vec3.length (v : Vec3) : ℝ :=
  Real.sqrt (v.x * v.x + v.y * v.y + v.z * v.z)

/-- `Vector3.multiplyScalar`. -/
def Vec3.multiplyScalar (v : Vec3) (s : ℝ) : Vec3 :=
  ⟨v.x * s, v.y * s, v.z * s⟩

/-- `Vector3.divideScalar`: multiplies by `1 / s`. -/
def Vec3.divideScalar (v : Vec3) (s : ℝ) : Vec3 :=
  v.multiplyScalar (1 / s)

/-- `Vector3.normalize`: `divideScalar(length() || 1)`; the JavaScript
`||` makes the divisor 1 when the length is 0, so the zero vector is
left unchanged. -/
def Vec3.normalize (v : Vec3) : Vec3 :=
  v.divideScalar (if v.length = 0 then 1 else v.length)

/-- A quaternion, mirroring `THREE.Quaternion` (components x, y, z, w). -/
structure Quat where
  x : ℝ
  y : ℝ
  z : ℝ
  w : ℝ

/-- Squared euclidean norm of a quaternion (`Quaternion.lengthSq`). -/
def Quat.norm2 (q : Quat) : ℝ :=
  q.x * q.x + q.y * q.y + q.z * q.z + q.w * q.w

/-- `Quaternion.length`. -/
def Quat.length (q : Quat) : ℝ :=
  Real.sqrt q.norm2

/-- `Quaternion.dot`. -/
def Quat.dot (a b : Quat) : ℝ :=
  a.x * b.x + a.y * b.y + a.z * b.z + a.w * b.w

/-- `Quaternion.setFromAxisAngle` (axis assumed normalized by three.js). -/
def Quat.setFromAxisAngle (axis : Vec3) (angle : ℝ) : Quat :=
  let halfAngle := angle / 2
  let s := Real.sin halfAngle
  ⟨axis.x * s, axis.y * s, axis.z * s, Real.cos halfAngle⟩

/-- `Quaternion.multiplyQuaternions a b` computes the Hamilton product
`a * b` with the three.js component formulas. -/
def Quat.multiplyQuaternions (a b : Quat) : Quat :=
  ⟨a.x * b.w + a.w * b.x + a.y * b.z - a.z * b.y,
   a.y * b.w + a.w * b.y + a.z * b.x - a.x * b.z,
   a.z * b.w + a.w * b.z + a.x * b.y - a.y * b.x,
   a.w * b.w - a.x * b.x - a.y * b.y - a.z * b.z⟩

/-- `p.premultiply q` sets `p` to `q * p`. -/
def Quat.premultiply (p q : Quat) : Quat :=
  Quat.multiplyQuaternions q p

/-- `Quaternion.normalize`: the zero quaternion becomes the identity,
anything else is divided by its length. -/
def Quat.normalize (q : Quat) : Quat :=
  if q.length = 0 then ⟨0, 0, 0, 1⟩
  else
    let l := 1 / q.length
    ⟨q.x * l, q.y * l, q.z * l, q.w * l⟩

/-- `Vector3.applyQuaternion`, with the three.js optimized sandwich
product (`t = 2 q.xyz x v; v + q.w t + q.xyz x t`). -/
def Vec3.applyQuaternion (v : Vec3) (q : Quat) : Vec3 :=
  let tx := 2 * (q.y * v.z - q.z * v.y)
  let ty := 2 * (q.z * v.x - q.x * v.z)
  let tz := 2 * (q.x * v.y - q.y * v.x)
  ⟨v.x + q.w * tx + q.y * tz - q.z * ty,
   v.y + q.w * ty + q.z * tx - q.x * tz,
   v.z + q.w * tz + q.x * ty - q.y * tx⟩

/-- JavaScript `Math.atan2`. -/
def atan2 (y x : ℝ) : ℝ :=
  if 0 < x then Real.arctan (y / x)
  else if x < 0 then
    (if 0 ≤ y then Real.arctan (y / x) + π else Real.arctan (y / x) - π)
  else if 0 < y then π / 2
  else if y < 0 then -(π / 2)
  else 0

/-- JavaScript `Number.EPSILON` = 2⁻⁵². -/
def numberEpsilon : ℝ :=
  1 / 2 ^ 52

/-- `Quaternion.slerp qb t` on a quaternion `qa`, following the three.js
implementation: early outs at `t = 0` and `t = 1`, sign flip of `qb`
when the dot product is negative, return of `qa` when the (flipped) dot
is ≥ 1, a normalized linear interpolation when `1 - cos²` is at most
`Number.EPSILON`, and the `sin`-ratio formula otherwise. -/
def Quat.slerp (qa qb : Quat) (t : ℝ) : Quat :=
  if t = 0 then qa
  else if t = 1 then qb
  else
    let cos0 := qa.dot qb
    let qm : Quat := if cos0 < 0 then ⟨-qb.x, -qb.y, -qb.z, -qb.w⟩ else qb
    let cosHalfTheta := if cos0 < 0 then -cos0 else cos0
    if 1 ≤ cosHalfTheta then qa
    else
      let sqrSinHalfTheta := 1 - cosHalfTheta * cosHalfTheta
      if sqrSinHalfTheta ≤ numberEpsilon then
        Quat.normalize
          ⟨(1 - t) * qa.x + t * qm.x, (1 - t) * qa.y + t * qm.y,
           (1 - t) * qa.z + t * qm.z, (1 - t) * qa.w + t * qm.w⟩
      else
        let sinHalfTheta := Real.sqrt sqrSinHalfTheta
        let halfTheta := atan2 sinHalfTheta cosHalfTheta
        let ratioA := Real.sin ((1 - t) * halfTheta) / sinHalfTheta
        let ratioB := Real.sin (t * halfTheta) / sinHalfTheta
        ⟨qa.x * ratioA + qm.x * ratioB, qa.y * ratioA + qm.y * ratioB,
         qa.z * ratioA + qm.z * ratioB, qa.w * ratioA + qm.w * ratioB⟩

/-- The 3x3 rotation part of a `THREE.Matrix4`. -/
structure Mat3 where
  m11 : ℝ
  m12 : ℝ
  m13 : ℝ
  m21 : ℝ
  m22 : ℝ
  m23 : ℝ
  m31 : ℝ
  m32 : ℝ
  m33 : ℝ

/-- `Matrix4.makeRotationAxis` (rotation part). -/
def makeRotationAxis (axis : Vec3) (angle : ℝ) : Mat3 :=
  let c := Real.cos angle
  let s := Real.sin angle
  let t := 1 - c
  let x := axis.x
  let y := axis.y
  let z := axis.z
  let tx := t * x
  let ty := t * y
  ⟨tx * x + c, tx * y - s * z, tx * z + s * y,
   tx * y + s * z, ty * y + c, ty * z - s * x,
   tx * z - s * y, ty * z + s * x, t * z * z + c⟩

/-- `Quaternion.setFromRotationMatrix` with its four trace branches. -/
def Quat.setFromRotationMatrix (m : Mat3) : Quat :=
  let trace := m.m11 + m.m22 + m.m33
  if 0 < trace then
    let s := 0.5 / Real.sqrt (trace + 1)
    ⟨(m.m32 - m.m23) * s, (m.m13 - m.m31) * s, (m.m21 - m.m12) * s, 0.25 / s⟩
  else if m.m22 < m.m11 ∧ m.m33 < m.m11 then
    let s := 2 * Real.sqrt (1 + m.m11 - m.m22 - m.m33)
    ⟨0.25 * s, (m.m12 + m.m21) / s, (m.m13 + m.m31) / s, (m.m32 - m.m23) / s⟩
  else if m.m33 < m.m22 then
    let s := 2 * Real.sqrt (1 + m.m22 - m.m11 - m.m33)
    ⟨(m.m12 + m.m21) / s, 0.25 * s, (m.m23 + m.m32) / s, (m.m13 - m.m31) / s⟩
  else
    let s := 2 * Real.sqrt (1 + m.m33 - m.m11 - m.m22)
    ⟨(m.m13 + m.m31) / s, (m.m23 + m.m32) / s, 0.25 * s, (m.m21 - m.m12) / s⟩

/-- `MathUtils.degToRad`. -/
def degToRad (degrees : ℝ) : ℝ :=
  degrees * (π / 180)

/-- `Quaternion.setFromEuler` for rotation order XYZ. -/
def Quat.setFromEulerXYZ (ex ey ez : ℝ) : Quat :=
  let c1 := Real.cos (ex / 2)
  let c2 := Real.cos (ey / 2)
  let c3 := Real.cos (ez / 2)
  let s1 := Real.sin (ex / 2)
  let s2 := Real.sin (ey / 2)
  let s3 := Real.sin (ez / 2)
  ⟨s1 * c2 * c3 + c1 * s2 * s3,
   c1 * s2 * c3 - s1 * c2 * s3,
   c1 * c2 * s3 + s1 * s2 * c3,
   c1 * c2 * c3 - s1 * s2 * s3⟩

/-- A geographic coordinate, mirroring the component's `Location`. -/
structure Location where
  latitude : ℝ
  longitude : ℝ

/-- The `isNightTime` memo.  When no location is known it falls back to
the local-clock heuristic `hour <= 6 || hour >= 18`.  When a location is
known the component compares the current instant against the SunCalc
sunrise/sunset instants; that external comparison is abstracted here as
the boolean input `afterSunsetOrBeforeSunrise`. -/
def isNightTime (location : Option Location) (hour : ℕ)
    (afterSunsetOrBeforeSunrise : Bool) : Bool :=
  match location with
  | none => decide (hour ≤ 6) || decide (18 ≤ hour)
  | some _ => afterSunsetOrBeforeSunrise

/-- The texture-selection boolean of the render output:
`(isNightTime || forceNightTime) ? nightTexture : dayTexture`. -/
def textureIsNight (isNight forceNightTime : Bool) : Bool :=
  isNight || forceNightTime

/-- The `locationQuaternion` memo: the target coordinate is
`targetLocation || location`; with no coordinate the memo is `none`,
otherwise the Euler-XYZ quaternion of the calibrated angles. -/
def locationQuaternion (targetLocation location : Option Location) :
    Option Quat :=
  let targetCoords := match targetLocation with
    | some t => some t
    | none => location
  match targetCoords with
  | none => none
  | some tc =>
    let ex := degToRad (-(69 - tc.latitude))
    let ey := degToRad (-tc.longitude - 88)
    let ez := degToRad 0
    some (Quat.setFromEulerXYZ ex ey ez)

/-- The components's axial-tilt quaternion
(`setFromAxisAngle((0,0,1), degToRad 66.5)`). -/
def axisRotation : Quat :=
  Quat.setFromAxisAngle ⟨0, 0, 1⟩ (degToRad 66.5)

/-- The mutable state of the controller: the mesh quaternion
(`earthRef.current.quaternion`), the drag flag (`isDragging`), the last
pointer position (`lastPointerPos`) and the angular velocity. -/
structure EarthState where
  quaternion : Quat
  isDragging : Bool
  lastPointerPos : Option (ℝ × ℝ)
  angularVelocity : Vec3

/-- Initial state: the mesh is created with `quaternion={axisRotation}`,
no drag in progress, zero angular velocity. -/
def initialState : EarthState :=
  ⟨axisRotation, false, none, ⟨0, 0, 0⟩⟩

/-- Drag sensitivity constant. -/
def sensitivity : ℝ := 0.005

/-- `onPointerDown`: no-op in fixed mode, otherwise starts a drag and
records the pointer position. -/
def onPointerDown (isFixed : Bool) (clientX clientY : ℝ) (s : EarthState) :
    EarthState :=
  if isFixed then s
  else { s with isDragging := true, lastPointerPos := some (clientX, clientY) }

/-- `onPointerMove`: guarded by `isFixed || !isDragging || !lastPointerPos`;
otherwise premultiplies the drag rotation `qY * qX` into the quaternion,
overwrites the angular velocity and records the new pointer position. -/
def onPointerMove (isFixed : Bool) (clientX clientY : ℝ) (s : EarthState) :
    EarthState :=
  if isFixed || !s.isDragging then s
  else
    match s.lastPointerPos with
    | none => s
    | some last =>
      let deltaX := clientX - last.1
      let deltaY := clientY - last.2
      let angleX := deltaY * sensitivity
      let angleY := deltaX * sensitivity
      let qX := Quat.setFromAxisAngle ⟨1, 0, 0⟩ angleX
      let qY := Quat.setFromAxisAngle ⟨0, 1, 0⟩ angleY
      let dragQuat := Quat.multiplyQuaternions qY qX
      let dragAngle := Real.sqrt (angleX * angleX + angleY * angleY)
      let axis := Vec3.normalize ⟨angleY, angleX, 0⟩
      { s with
        quaternion := s.quaternion.premultiply dragQuat,
        angularVelocity := axis.multiplyScalar dragAngle,
        lastPointerPos := some (clientX, clientY) }

/-- `onPointerUp` (also used for pointer-out): no-op in fixed mode,
otherwise clears the drag state. -/
def onPointerUp (isFixed : Bool) (s : EarthState) : EarthState :=
  if isFixed then s
  else { s with isDragging := false, lastPointerPos := none }

/-- Fixed-mode slerp speed. -/
def transitionSpeed : ℝ := 1.0

/-- Minimum angular speed for the inertial branch. -/
def velocityThreshold : ℝ := 0.001

/-- Friction factor decaying the angular velocity. -/
def friction : ℝ := 0.98

/-- The idle-spin axis: `(0,1,0).applyQuaternion(axisRotation)`. -/
def idleAxis : Vec3 :=
  Vec3.applyQuaternion ⟨0, 1, 0⟩ axisRotation

/-- The idle-rotation increment of a frame:
`setFromRotationMatrix(makeRotationAxis(idleAxis, delta * 0.025))`. -/
def idleQuat (delta : ℝ) : Quat :=
  Quat.setFromRotationMatrix (makeRotationAxis idleAxis (delta * 0.025))

/-- The `useFrame` callback: slerp toward the target when fixed with a
target available, otherwise (when not dragging) either the inertial
rotation with friction decay, or the idle spin. -/
def useFrameStep (isFixed : Bool) (lq : Option Quat) (delta : ℝ)
    (s : EarthState) : EarthState :=
  match isFixed, lq with
  | true, some target =>
    { s with quaternion := s.quaternion.slerp target (delta * transitionSpeed) }
  | _, _ =>
    if s.isDragging then s
    else
      let speed := s.angularVelocity.length
      if velocityThreshold < speed then
        let axis := s.angularVelocity.normalize
        let angle := speed * delta
        let deltaQuat := Quat.setFromAxisAngle axis angle
        { s with
          quaternion := s.quaternion.premultiply deltaQuat,
          angularVelocity := s.angularVelocity.multiplyScalar friction }
      else
        { s with quaternion := s.quaternion.premultiply (idleQuat delta) }

/-- The external stimuli of the controller: pointer events (with the
`isFixed` prop current at the event) and frame ticks (with the current
props and the memoized location inputs). -/
inductive EarthEvent where
  | pointerDown (isFixed : Bool) (clientX clientY : ℝ)
  | pointerMove (isFixed : Bool) (clientX clientY : ℝ)
  | pointerUp (isFixed : Bool)
  | frame (isFixed : Bool) (targetLocation location : Option Location) (delta : ℝ)

/-- One controller transition. -/
def step : EarthEvent → EarthState → EarthState
  | .pointerDown isFixed cx cy, s => onPointerDown isFixed cx cy s
  | .pointerMove isFixed cx cy, s => onPointerMove isFixed cx cy s
  | .pointerUp isFixed, s => onPointerUp isFixed s
  | .frame isFixed tl loc delta, s =>
    useFrameStep isFixed (locationQuaternion tl loc) delta s

/-- Run a sequence of stimuli. -/
def run (evs : List EarthEvent) (s : EarthState) : EarthState :=
  evs.foldl (fun s e => step e s) s

/-- The `isFixed` prop in force when a stimulus is delivered. -/
def eventFixed : EarthEvent → Bool
  | .pointerDown f _ _ => f
  | .pointerMove f _ _ => f
  | .pointerUp f => f
  | .frame f _ _ _ => f

/-- Angular distance between two orientations, as the arc cosine of the
absolute quaternion dot product (sign-insensitive because `q` and `-q`
represent the same rotation). -/
def angularError (p q : Quat) : ℝ :=
  Real.arccos |Quat.dot p q|

/-! ## Basic norm lemmas for the embedded three.js operations -/

lemma Vec3.length_nonneg (v : Vec3) : 0 ≤ v.length :=
  Real.sqrt_nonneg _

lemma Vec3.length_sq (v : Vec3) :
    v.length ^ 2 = v.x * v.x + v.y * v.y + v.z * v.z := by
  unfold Vec3.length
  exact Real.sq_sqrt
    (by nlinarith [mul_self_nonneg v.x, mul_self_nonneg v.y, mul_self_nonneg v.z])

lemma Vec3.sumsq_of_length_eq_one (v : Vec3) (h : v.length = 1) :
    v.x * v.x + v.y * v.y + v.z * v.z = 1 := by
  have hs := v.length_sq
  rw [h] at hs
  linarith

lemma Vec3.length_multiplyScalar (v : Vec3) (s : ℝ) :
    (v.multiplyScalar s).length = |s| * v.length := by
  simp only [Vec3.multiplyScalar, Vec3.length]
  rw [show v.x * s * (v.x * s) + v.y * s * (v.y * s) + v.z * s * (v.z * s)
        = s ^ 2 * (v.x * v.x + v.y * v.y + v.z * v.z) by ring,
      Real.sqrt_mul (sq_nonneg s), Real.sqrt_sq_eq_abs]

lemma Vec3.length_normalize (v : Vec3) (h : v.length ≠ 0) :
    v.normalize.length = 1 := by
  have hpos : 0 < v.length := lt_of_le_of_ne v.length_nonneg (Ne.symm h)
  simp only [Vec3.normalize, Vec3.divideScalar, if_neg h,
    Vec3.length_multiplyScalar]
  rw [abs_of_pos (by positivity)]
  field_simp

lemma Quat.norm2_nonneg (q : Quat) : 0 ≤ q.norm2 := by
  unfold Quat.norm2
  nlinarith [mul_self_nonneg q.x, mul_self_nonneg q.y, mul_self_nonneg q.z,
    mul_self_nonneg q.w]

lemma Quat.norm2_multiplyQuaternions (a b : Quat) :
    (Quat.multiplyQuaternions a b).norm2 = a.norm2 * b.norm2 := by
  simp only [Quat.multiplyQuaternions, Quat.norm2]
  ring

lemma Quat.norm2_premultiply (p q : Quat) :
    (p.premultiply q).norm2 = q.norm2 * p.norm2 := by
  simp only [Quat.premultiply, Quat.norm2_multiplyQuaternions]

lemma Quat.norm2_setFromAxisAngle (axis : Vec3) (angle : ℝ)
    (h : axis.x * axis.x + axis.y * axis.y + axis.z * axis.z = 1) :
    (Quat.setFromAxisAngle axis angle).norm2 = 1 := by
  simp only [Quat.setFromAxisAngle, Quat.norm2]
  have hsc := Real.sin_sq_add_cos_sq (angle / 2)
  linear_combination Real.sin (angle / 2) ^ 2 * h + hsc

lemma Quat.norm2_setFromEulerXYZ (ex ey ez : ℝ) :
    (Quat.setFromEulerXYZ ex ey ez).norm2 = 1 := by
  simp only [Quat.setFromEulerXYZ, Quat.norm2]
  have h1 := Real.sin_sq_add_cos_sq (ex / 2)
  have h2 := Real.sin_sq_add_cos_sq (ey / 2)
  have h3 := Real.sin_sq_add_cos_sq (ez / 2)
  linear_combination
    ((Real.sin (ey / 2) ^ 2 + Real.cos (ey / 2) ^ 2) *
      (Real.sin (ez / 2) ^ 2 + Real.cos (ez / 2) ^ 2)) * h1 +
    (Real.sin (ez / 2) ^ 2 + Real.cos (ez / 2) ^ 2) * h2 + h3

lemma Vec3.sumsq_applyQuaternion (v : Vec3) (q : Quat) (hq : q.norm2 = 1) :
    (v.applyQuaternion q).x * (v.applyQuaternion q).x +
      (v.applyQuaternion q).y * (v.applyQuaternion q).y +
      (v.applyQuaternion q).z * (v.applyQuaternion q).z =
    v.x * v.x + v.y * v.y + v.z * v.z := by
  have hq' : q.x * q.x + q.y * q.y + q.z * q.z + q.w * q.w = 1 := hq
  simp only [Vec3.applyQuaternion]
  linear_combination
    (4 * ((q.x ^ 2 + q.y ^ 2 + q.z ^ 2) * (v.x ^ 2 + v.y ^ 2 + v.z ^ 2) -
      (q.x * v.x + q.y * v.y + q.z * v.z) ^ 2)) * hq'

lemma numberEpsilon_pos : 0 < numberEpsilon := by
  unfold numberEpsilon
  norm_num

/-- `Math.atan2 y x` on the closed right half of the unit circle recovers
the angle with the given cosine `x` and sine `y`. -/
lemma atan2_cos_sin {y x : ℝ} (hx : 0 ≤ x) (hy : 0 < y)
    (hxy : x ^ 2 + y ^ 2 = 1) :
    Real.cos (atan2 y x) = x ∧ Real.sin (atan2 y x) = y := by
  rcases hx.eq_or_lt with hx0 | hxpos
  · have hy1 : y = 1 := by nlinarith
    unfold atan2
    rw [if_neg (by linarith), if_neg (by linarith), if_pos hy]
    simp [← hx0, hy1]
  · have hx' : x ≠ 0 := ne_of_gt hxpos
    have hfrac : 1 + (y / x) ^ 2 = (1 / x) ^ 2 := by
      field_simp
      linarith
    have hsqrt : Real.sqrt (1 + (y / x) ^ 2) = 1 / x := by
      rw [hfrac, Real.sqrt_sq (by positivity)]
    unfold atan2
    rw [if_pos hxpos]
    constructor
    · rw [Real.cos_arctan, hsqrt]
      field_simp
    · rw [Real.sin_arctan, hsqrt]
      field_simp

/-- The norm identity behind slerp: for angles summing to `A + B`,
`sin A ^ 2 + sin B ^ 2 + 2 sin A sin B cos (A + B) = sin (A + B) ^ 2`. -/
lemma sin_sq_add_sin_sq_add_two_mul (A B : ℝ) :
    Real.sin A ^ 2 + Real.sin B ^ 2 +
      2 * Real.sin A * Real.sin B * Real.cos (A + B) =
    Real.sin (A + B) ^ 2 := by
  rw [Real.sin_add, Real.cos_add]
  have hA := Real.sin_sq_add_cos_sq A
  have hB := Real.sin_sq_add_cos_sq B
  linear_combination (-Real.sin A ^ 2) * hB - Real.sin B ^ 2 * hA

lemma Quat.norm2_normalize (q : Quat) (h : 0 < q.norm2) :
    q.normalize.norm2 = 1 := by
  have hlen : 0 < q.length := Real.sqrt_pos.mpr h
  have hsq : q.length ^ 2 = q.norm2 := Real.sq_sqrt h.le
  simp only [Quat.normalize, if_neg (ne_of_gt hlen)]
  have expand : (Quat.mk (q.x * (1 / q.length)) (q.y * (1 / q.length))
      (q.z * (1 / q.length)) (q.w * (1 / q.length))).norm2
      = q.norm2 * (1 / q.length) ^ 2 := by
    simp only [Quat.norm2]
    ring
  rw [expand, ← hsq]
  field_simp

/-- The linear-interpolation fallback of slerp starts from a vector of
positive squared norm whenever the two unit quaternions have dot product
in `[0, 1)` and `t ≠ 0`. -/
lemma Quat.norm2_lerp_pos (qa qm : Quat) (t : ℝ) (ha : qa.norm2 = 1)
    (hm : qm.norm2 = 1) (hd0 : 0 ≤ qa.dot qm) (hd1 : qa.dot qm < 1)
    (ht : t ≠ 0) :
    0 < (Quat.mk ((1 - t) * qa.x + t * qm.x) ((1 - t) * qa.y + t * qm.y)
      ((1 - t) * qa.z + t * qm.z) ((1 - t) * qa.w + t * qm.w)).norm2 := by
  have expand : (Quat.mk ((1 - t) * qa.x + t * qm.x) ((1 - t) * qa.y + t * qm.y)
      ((1 - t) * qa.z + t * qm.z) ((1 - t) * qa.w + t * qm.w)).norm2
      = (1 - t) ^ 2 * qa.norm2 + 2 * t * (1 - t) * qa.dot qm
        + t ^ 2 * qm.norm2 := by
    simp only [Quat.norm2, Quat.dot]
    ring
  rw [expand, ha, hm]
  have ht2 : 0 < t ^ 2 := lt_of_le_of_ne (sq_nonneg t) (Ne.symm (pow_ne_zero 2 ht))
  rcases le_or_lt 0 (t * (1 - t)) with htu | htu
  · nlinarith
  · nlinarith

/-- The generic branch of slerp produces a unit quaternion: writing
`c` for the (flip-corrected) dot product and `S = √(1 - c²)`, the
combination `sin((1-t)θ)/S ⬝ qa + sin(tθ)/S ⬝ qm` with `θ = atan2 S c`
has squared norm 1. -/
lemma Quat.norm2_slerpMain (qa qm : Quat) (c t : ℝ) (ha : qa.norm2 = 1)
    (hm : qm.norm2 = 1) (hc : qa.dot qm = c) (hd0 : 0 ≤ c)
    (hsq : numberEpsilon < 1 - c * c) :
    (Quat.mk
      (qa.x * (Real.sin ((1 - t) * atan2 (Real.sqrt (1 - c * c)) c) /
          Real.sqrt (1 - c * c))
        + qm.x * (Real.sin (t * atan2 (Real.sqrt (1 - c * c)) c) /
          Real.sqrt (1 - c * c)))
      (qa.y * (Real.sin ((1 - t) * atan2 (Real.sqrt (1 - c * c)) c) /
          Real.sqrt (1 - c * c))
        + qm.y * (Real.sin (t * atan2 (Real.sqrt (1 - c * c)) c) /
          Real.sqrt (1 - c * c)))
      (qa.z * (Real.sin ((1 - t) * atan2 (Real.sqrt (1 - c * c)) c) /
          Real.sqrt (1 - c * c))
        + qm.z * (Real.sin (t * atan2 (Real.sqrt (1 - c * c)) c) /
          Real.sqrt (1 - c * c)))
      (qa.w * (Real.sin ((1 - t) * atan2 (Real.sqrt (1 - c * c)) c) /
          Real.sqrt (1 - c * c))
        + qm.w * (Real.sin (t * atan2 (Real.sqrt (1 - c * c)) c) /
          Real.sqrt (1 - c * c)))).norm2 = 1 := by
  have heps := numberEpsilon_pos
  have hs2pos : 0 < 1 - c * c := heps.trans hsq
  set S := Real.sqrt (1 - c * c) with hS
  have hSpos : 0 < S := Real.sqrt_pos.mpr hs2pos
  have hS2 : S ^ 2 = 1 - c * c := Real.sq_sqrt hs2pos.le
  set θ := atan2 S c with hθ
  obtain ⟨hcos, hsin⟩ := atan2_cos_sin hd0 hSpos (by nlinarith)
  rw [← hθ] at hcos hsin
  set rA := Real.sin ((1 - t) * θ) / S with hrA
  set rB := Real.sin (t * θ) / S with hrB
  have expand : (Quat.mk (qa.x * rA + qm.x * rB) (qa.y * rA + qm.y * rB)
      (qa.z * rA + qm.z * rB) (qa.w * rA + qm.w * rB)).norm2
      = rA ^ 2 * qa.norm2 + 2 * rA * rB * qa.dot qm + rB ^ 2 * qm.norm2 := by
    simp only [Quat.norm2, Quat.dot]
    ring
  rw [expand, ha, hm, hc]
  have key := sin_sq_add_sin_sq_add_two_mul ((1 - t) * θ) (t * θ)
  rw [show (1 - t) * θ + t * θ = θ by ring, hcos, hsin] at key
  rw [hrA, hrB]
  field_simp
  linear_combination S ^ 4 * key

/-- Slerp of unit quaternions is a unit quaternion, through every branch
of the three.js implementation. -/
lemma Quat.norm2_slerp (qa qb : Quat) (t : ℝ) (ha : qa.norm2 = 1)
    (hb : qb.norm2 = 1) : (qa.slerp qb t).norm2 = 1 := by
  rcases eq_or_ne t 0 with h0 | h0
  · simp [Quat.slerp, h0, ha]
  rcases eq_or_ne t 1 with h1 | h1
  · simp [Quat.slerp, h0, h1, hb]
  have hmneg : (Quat.mk (-qb.x) (-qb.y) (-qb.z) (-qb.w)).norm2 = 1 := by
    simp only [Quat.norm2] at hb ⊢
    linarith [hb]
  have hdneg : qa.dot (Quat.mk (-qb.x) (-qb.y) (-qb.z) (-qb.w))
      = -(qa.dot qb) := by
    simp only [Quat.dot]
    ring
  simp only [Quat.slerp, if_neg h0, if_neg h1]
  split_ifs with hneg hge heps hge2 heps2
  · exact ha
  · exact Quat.norm2_normalize _
      (Quat.norm2_lerp_pos qa ⟨-qb.x, -qb.y, -qb.z, -qb.w⟩ t ha hmneg
        (by rw [hdneg]; linarith) (by rw [hdneg]; linarith [not_le.mp hge]) h0)
  · exact Quat.norm2_slerpMain qa ⟨-qb.x, -qb.y, -qb.z, -qb.w⟩
      (-(qa.dot qb)) t ha hmneg hdneg (by linarith) (not_le.mp heps)
  · exact ha
  · exact Quat.norm2_normalize _
      (Quat.norm2_lerp_pos qa qb t ha hb (not_lt.mp hneg)
        (by linarith [not_le.mp hge2]) h0)
  · exact Quat.norm2_slerpMain qa qb (qa.dot qb) t ha hb rfl
      (not_lt.mp hneg) (not_le.mp heps2)

/-- Algebra of the positive-trace branch of `setFromRotationMatrix` on a
rotation matrix about a unit axis. -/
lemma rotquat_branch1 (c s x y z R : ℝ) (hsc : s ^ 2 + c ^ 2 = 1)
    (hxyz : x * x + y * y + z * z = 1) (hRpos : 0 < R)
    (hR2 : R ^ 2 = (1 - c) * x * x + c + ((1 - c) * y * y + c) +
      ((1 - c) * z * z + c) + 1) :
    (Quat.mk (((1 - c) * y * z + s * x - ((1 - c) * y * z - s * x)) * (0.5 / R))
      (((1 - c) * x * z + s * y - ((1 - c) * x * z - s * y)) * (0.5 / R))
      (((1 - c) * x * y + s * z - ((1 - c) * x * y - s * z)) * (0.5 / R))
      (0.25 / (0.5 / R))).norm2 = 1 := by
  have hRne : R ≠ 0 := ne_of_gt hRpos
  have hT : R ^ 2 = 2 + 2 * c := by
    rw [hR2]
    linear_combination (1 - c) * hxyz
  have hc1 : 0 < 2 + 2 * c := by
    have := pow_pos hRpos 2
    linarith [hT]
  simp only [Quat.norm2]
  have e1 : ((1 - c) * y * z + s * x - ((1 - c) * y * z - s * x)) * (0.5 / R)
      = s * x / R := by ring
  have e2 : ((1 - c) * x * z + s * y - ((1 - c) * x * z - s * y)) * (0.5 / R)
      = s * y / R := by ring
  have e3 : ((1 - c) * x * y + s * z - ((1 - c) * x * y - s * z)) * (0.5 / R)
      = s * z / R := by ring
  have e4 : (0.25 : ℝ) / (0.5 / R) = R / 2 := by
    rw [div_div_eq_mul_div]
    ring
  rw [e1, e2, e3, e4]
  have combined : s * x / R * (s * x / R) + s * y / R * (s * y / R) +
      s * z / R * (s * z / R) + R / 2 * (R / 2)
      = s ^ 2 * (x * x + y * y + z * z) / R ^ 2 + R ^ 2 / 4 := by
    ring
  rw [combined, hxyz, hT]
  field_simp
  linear_combination 4 * hsc

/-- Algebra of the x-dominant branch of `setFromRotationMatrix` on a
rotation matrix about a unit axis. -/
lemma rotquat_branch2 (c s x y z R : ℝ) (hsc : s ^ 2 + c ^ 2 = 1)
    (hxyz : x * x + y * y + z * z = 1) (hRpos : 0 < R)
    (hR2 : R ^ 2 = 1 + ((1 - c) * x * x + c) - ((1 - c) * y * y + c) -
      ((1 - c) * z * z + c)) :
    (Quat.mk (0.25 * (2 * R))
      (((1 - c) * x * y - s * z + ((1 - c) * x * y + s * z)) / (2 * R))
      (((1 - c) * x * z + s * y + ((1 - c) * x * z - s * y)) / (2 * R))
      (((1 - c) * y * z + s * x - ((1 - c) * y * z - s * x)) / (2 * R))).norm2
      = 1 := by
  have hRne : R ≠ 0 := ne_of_gt hRpos
  have hRd : R ^ 2 = 2 * ((1 - c) * (x * x)) := by
    rw [hR2]
    linear_combination (c - 1) * hxyz
  have hx2 : 0 < (1 - c) * (x * x) := by nlinarith [pow_pos hRpos 2]
  have hcpos : 0 < 1 - c := by nlinarith [mul_self_nonneg x]
  have hxx : 0 < x * x := by nlinarith
  simp only [Quat.norm2]
  have e1 : (0.25 : ℝ) * (2 * R) = R / 2 := by ring
  have e2 : ((1 - c) * x * y - s * z + ((1 - c) * x * y + s * z)) / (2 * R)
      = (1 - c) * x * y / R := by
    rw [div_eq_div_iff (mul_ne_zero two_ne_zero hRne) hRne]
    ring
  have e3 : ((1 - c) * x * z + s * y + ((1 - c) * x * z - s * y)) / (2 * R)
      = (1 - c) * x * z / R := by
    rw [div_eq_div_iff (mul_ne_zero two_ne_zero hRne) hRne]
    ring
  have e4 : ((1 - c) * y * z + s * x - ((1 - c) * y * z - s * x)) / (2 * R)
      = s * x / R := by
    rw [div_eq_div_iff (mul_ne_zero two_ne_zero hRne) hRne]
    ring
  rw [e1, e2, e3, e4]
  have combined : R / 2 * (R / 2) + (1 - c) * x * y / R * ((1 - c) * x * y / R)
      + (1 - c) * x * z / R * ((1 - c) * x * z / R) + s * x / R * (s * x / R)
      = R ^ 2 / 4 + ((1 - c) ^ 2 * (x * x) * (y * y) +
        (1 - c) ^ 2 * (x * x) * (z * z) + s ^ 2 * (x * x)) / R ^ 2 := by
    ring
  rw [combined, hRd]
  have hcne : (1 - c) ≠ 0 := ne_of_gt hcpos
  have hxne : x * x ≠ 0 := ne_of_gt hxx
  field_simp
  linear_combination (4 * (1 - c) ^ 2 * (x * x)) * hxyz + (4 * (x * x)) * hsc

/-- Algebra of the y-dominant branch of `setFromRotationMatrix` on a
rotation matrix about a unit axis. -/
lemma rotquat_branch3 (c s x y z R : ℝ) (hsc : s ^ 2 + c ^ 2 = 1)
    (hxyz : x * x + y * y + z * z = 1) (hRpos : 0 < R)
    (hR2 : R ^ 2 = 1 + ((1 - c) * y * y + c) - ((1 - c) * x * x + c) -
      ((1 - c) * z * z + c)) :
    (Quat.mk
      (((1 - c) * x * y - s * z + ((1 - c) * x * y + s * z)) / (2 * R))
      (0.25 * (2 * R))
      (((1 - c) * y * z - s * x + ((1 - c) * y * z + s * x)) / (2 * R))
      (((1 - c) * x * z + s * y - ((1 - c) * x * z - s * y)) / (2 * R))).norm2
      = 1 := by
  have hRne : R ≠ 0 := ne_of_gt hRpos
  have hRd : R ^ 2 = 2 * ((1 - c) * (y * y)) := by
    rw [hR2]
    linear_combination (c - 1) * hxyz
  have hy2 : 0 < (1 - c) * (y * y) := by nlinarith [pow_pos hRpos 2]
  have hcpos : 0 < 1 - c := by nlinarith [mul_self_nonneg y]
  have hyy : 0 < y * y := by nlinarith
  simp only [Quat.norm2]
  have e1 : (0.25 : ℝ) * (2 * R) = R / 2 := by ring
  have e2 : ((1 - c) * x * y - s * z + ((1 - c) * x * y + s * z)) / (2 * R)
      = (1 - c) * x * y / R := by
    rw [div_eq_div_iff (mul_ne_zero two_ne_zero hRne) hRne]
    ring
  have e3 : ((1 - c) * y * z - s * x + ((1 - c) * y * z + s * x)) / (2 * R)
      = (1 - c) * y * z / R := by
    rw [div_eq_div_iff (mul_ne_zero two_ne_zero hRne) hRne]
    ring
  have e4 : ((1 - c) * x * z + s * y - ((1 - c) * x * z - s * y)) / (2 * R)
      = s * y / R := by
    rw [div_eq_div_iff (mul_ne_zero two_ne_zero hRne) hRne]
    ring
  rw [e1, e2, e3, e4]
  have combined : (1 - c) * x * y / R * ((1 - c) * x * y / R) + R / 2 * (R / 2)
      + (1 - c) * y * z / R * ((1 - c) * y * z / R) + s * y / R * (s * y / R)
      = R ^ 2 / 4 + ((1 - c) ^ 2 * (y * y) * (x * x) +
        (1 - c) ^ 2 * (y * y) * (z * z) + s ^ 2 * (y * y)) / R ^ 2 := by
    ring
  rw [combined, hRd]
  have hcne : (1 - c) ≠ 0 := ne_of_gt hcpos
  have hyne : y * y ≠ 0 := ne_of_gt hyy
  field_simp
  linear_combination (4 * (1 - c) ^ 2 * (y * y)) * hxyz + (4 * (y * y)) * hsc

/-- Algebra of the z-dominant branch of `setFromRotationMatrix` on a
rotation matrix about a unit axis. -/
lemma rotquat_branch4 (c s x y z R : ℝ) (hsc : s ^ 2 + c ^ 2 = 1)
    (hxyz : x * x + y * y + z * z = 1) (hRpos : 0 < R)
    (hR2 : R ^ 2 = 1 + ((1 - c) * z * z + c) - ((1 - c) * x * x + c) -
      ((1 - c) * y * y + c)) :
    (Quat.mk
      (((1 - c) * x * z + s * y + ((1 - c) * x * z - s * y)) / (2 * R))
      (((1 - c) * y * z - s * x + ((1 - c) * y * z + s * x)) / (2 * R))
      (0.25 * (2 * R))
      (((1 - c) * x * y + s * z - ((1 - c) * x * y - s * z)) / (2 * R))).norm2
      = 1 := by
  have hRne : R ≠ 0 := ne_of_gt hRpos
  have hRd : R ^ 2 = 2 * ((1 - c) * (z * z)) := by
    rw [hR2]
    linear_combination (c - 1) * hxyz
  have hz2 : 0 < (1 - c) * (z * z) := by nlinarith [pow_pos hRpos 2]
  have hcpos : 0 < 1 - c := by nlinarith [mul_self_nonneg z]
  have hzz : 0 < z * z := by nlinarith
  simp only [Quat.norm2]
  have e1 : (0.25 : ℝ) * (2 * R) = R / 2 := by ring
  have e2 : ((1 - c) * x * z + s * y + ((1 - c) * x * z - s * y)) / (2 * R)
      = (1 - c) * x * z / R := by
    rw [div_eq_div_iff (mul_ne_zero two_ne_zero hRne) hRne]
    ring
  have e3 : ((1 - c) * y * z - s * x + ((1 - c) * y * z + s * x)) / (2 * R)
      = (1 - c) * y * z / R := by
    rw [div_eq_div_iff (mul_ne_zero two_ne_zero hRne) hRne]
    ring
  have e4 : ((1 - c) * x * y + s * z - ((1 - c) * x * y - s * z)) / (2 * R)
      = s * z / R := by
    rw [div_eq_div_iff (mul_ne_zero two_ne_zero hRne) hRne]
    ring
  rw [e1, e2, e3, e4]
  have combined : (1 - c) * x * z / R * ((1 - c) * x * z / R)
      + (1 - c) * y * z / R * ((1 - c) * y * z / R) + R / 2 * (R / 2)
      + s * z / R * (s * z / R)
      = R ^ 2 / 4 + ((1 - c) ^ 2 * (z * z) * (x * x) +
        (1 - c) ^ 2 * (z * z) * (y * y) + s ^ 2 * (z * z)) / R ^ 2 := by
    ring
  rw [combined, hRd]
  have hcne : (1 - c) ≠ 0 := ne_of_gt hcpos
  have hzne : z * z ≠ 0 := ne_of_gt hzz
  field_simp
  linear_combination (4 * (1 - c) ^ 2 * (z * z)) * hxyz + (4 * (z * z)) * hsc

/-- `setFromRotationMatrix` applied to `makeRotationAxis` of a unit axis
yields a unit quaternion, in every trace branch. -/
lemma Quat.norm2_setFromRotationMatrix_makeRotationAxis (axis : Vec3)
    (angle : ℝ)
    (h : axis.x * axis.x + axis.y * axis.y + axis.z * axis.z = 1) :
    (Quat.setFromRotationMatrix (makeRotationAxis axis angle)).norm2 = 1 := by
  have hsc := Real.sin_sq_add_cos_sq angle
  simp only [makeRotationAxis, Quat.setFromRotationMatrix]
  split_ifs with h1 h2 h3
  · exact rotquat_branch1 _ _ _ _ _ _ hsc h
      (Real.sqrt_pos.mpr (by linarith)) (Real.sq_sqrt (by linarith))
  · have hpos : 0 < 1 + ((1 - Real.cos angle) * axis.x * axis.x + Real.cos angle)
        - ((1 - Real.cos angle) * axis.y * axis.y + Real.cos angle)
        - ((1 - Real.cos angle) * axis.z * axis.z + Real.cos angle) := by
      obtain ⟨h2a, h2b⟩ := h2
      nlinarith [not_lt.mp h1, mul_self_nonneg axis.y, mul_self_nonneg axis.z]
    exact rotquat_branch2 _ _ _ _ _ _ hsc h
      (Real.sqrt_pos.mpr hpos) (Real.sq_sqrt hpos.le)
  · have hpos : 0 < 1 + ((1 - Real.cos angle) * axis.y * axis.y + Real.cos angle)
        - ((1 - Real.cos angle) * axis.x * axis.x + Real.cos angle)
        - ((1 - Real.cos angle) * axis.z * axis.z + Real.cos angle) := by
      rcases not_and_or.mp h2 with hA | hA
      · nlinarith [not_lt.mp h1, not_lt.mp hA, mul_self_nonneg axis.x,
          mul_self_nonneg axis.z]
      · nlinarith [not_lt.mp h1, not_lt.mp hA, mul_self_nonneg axis.x,
          mul_self_nonneg axis.z]
    exact rotquat_branch3 _ _ _ _ _ _ hsc h
      (Real.sqrt_pos.mpr hpos) (Real.sq_sqrt hpos.le)
  · have hpos : 0 < 1 + ((1 - Real.cos angle) * axis.z * axis.z + Real.cos angle)
        - ((1 - Real.cos angle) * axis.x * axis.x + Real.cos angle)
        - ((1 - Real.cos angle) * axis.y * axis.y + Real.cos angle) := by
      rcases not_and_or.mp h2 with hA | hA
      · nlinarith [not_lt.mp h1, not_lt.mp hA, not_lt.mp h3,
          mul_self_nonneg axis.x, mul_self_nonneg axis.y]
      · nlinarith [not_lt.mp h1, not_lt.mp hA, not_lt.mp h3,
          mul_self_nonneg axis.x, mul_self_nonneg axis.y]
    exact rotquat_branch4 _ _ _ _ _ _ hsc h
      (Real.sqrt_pos.mpr hpos) (Real.sq_sqrt hpos.le)

lemma axisRotation_norm2 : axisRotation.norm2 = 1 := by
  apply Quat.norm2_setFromAxisAngle
  norm_num

lemma idleAxis_sumsq : idleAxis.x * idleAxis.x + idleAxis.y * idleAxis.y +
    idleAxis.z * idleAxis.z = 1 := by
  unfold idleAxis
  rw [Vec3.sumsq_applyQuaternion _ _ axisRotation_norm2]
  norm_num

lemma idleQuat_norm2 (delta : ℝ) : (idleQuat delta).norm2 = 1 := by
  unfold idleQuat
  exact Quat.norm2_setFromRotationMatrix_makeRotationAxis _ _ idleAxis_sumsq

lemma locationQuaternion_norm2 (tl loc : Option Location) (q : Quat)
    (h : locationQuaternion tl loc = some q) : q.norm2 = 1 := by
  unfold locationQuaternion at h
  rcases tl with _ | t
  · rcases loc with _ | l
    · simp at h
    · simp only [Option.some.injEq] at h
      rw [← h]
      exact Quat.norm2_setFromEulerXYZ _ _ _
  · simp only [Option.some.injEq] at h
    rw [← h]
    exact Quat.norm2_setFromEulerXYZ _ _ _

lemma onPointerDown_quaternion (isFixed : Bool) (cx cy : ℝ) (s : EarthState) :
    (onPointerDown isFixed cx cy s).quaternion = s.quaternion := by
  unfold onPointerDown
  split_ifs <;> rfl

lemma onPointerUp_quaternion (isFixed : Bool) (s : EarthState) :
    (onPointerUp isFixed s).quaternion = s.quaternion := by
  unfold onPointerUp
  split_ifs <;> rfl

lemma norm2_onPointerMove (isFixed : Bool) (cx cy : ℝ) (s : EarthState)
    (h : s.quaternion.norm2 = 1) :
    (onPointerMove isFixed cx cy s).quaternion.norm2 = 1 := by
  unfold onPointerMove
  split_ifs with hguard
  · exact h
  · rcases s.lastPointerPos with _ | ⟨lx, ly⟩
    · exact h
    · simp only
      rw [Quat.norm2_premultiply, Quat.norm2_multiplyQuaternions,
        Quat.norm2_setFromAxisAngle _ _ (by norm_num),
        Quat.norm2_setFromAxisAngle _ _ (by norm_num), h]
      norm_num

lemma norm2_useFrameStep (isFixed : Bool) (lq : Option Quat) (delta : ℝ)
    (s : EarthState) (hq : s.quaternion.norm2 = 1)
    (hlq : ∀ q, lq = some q → q.norm2 = 1) :
    (useFrameStep isFixed lq delta s).quaternion.norm2 = 1 := by
  have hrest : (if s.isDragging then s
      else
        if velocityThreshold < s.angularVelocity.length then
          { s with
            quaternion := s.quaternion.premultiply
              (Quat.setFromAxisAngle s.angularVelocity.normalize
                (s.angularVelocity.length * delta)),
            angularVelocity := s.angularVelocity.multiplyScalar friction }
        else
          { s with quaternion :=
              s.quaternion.premultiply (idleQuat delta) }).quaternion.norm2
      = 1 := by
    split_ifs with hdrag hspeed
    · exact hq
    · simp only
      have hlen : s.angularVelocity.length ≠ 0 := by
        have : (0 : ℝ) < velocityThreshold := by
          unfold velocityThreshold
          norm_num
        exact ne_of_gt (lt_trans this hspeed)
      rw [Quat.norm2_premultiply,
        Quat.norm2_setFromAxisAngle _ _
          (Vec3.sumsq_of_length_eq_one _ (Vec3.length_normalize _ hlen)), hq]
      norm_num
    · simp only
      rw [Quat.norm2_premultiply, idleQuat_norm2, hq]
      norm_num
  unfold useFrameStep
  rcases isFixed with _ | _
  · rcases lq with _ | q <;> exact hrest
  · rcases lq with _ | q
    · exact hrest
    · simp only
      exact Quat.norm2_slerp _ _ _ hq (hlq q rfl)

lemma norm2_step (e : EarthEvent) (s : EarthState)
    (h : s.quaternion.norm2 = 1) : (step e s).quaternion.norm2 = 1 := by
  cases e with
  | pointerDown isFixed cx cy => rw [step, onPointerDown_quaternion]; exact h
  | pointerMove isFixed cx cy => exact norm2_onPointerMove _ _ _ _ h
  | pointerUp isFixed => rw [step, onPointerUp_quaternion]; exact h
  | frame isFixed tl loc delta =>
    exact norm2_useFrameStep _ _ _ _ h (locationQuaternion_norm2 tl loc)

lemma norm2_run (evs : List EarthEvent) (s : EarthState)
    (h : s.quaternion.norm2 = 1) : (run evs s).quaternion.norm2 = 1 := by
  induction evs generalizing s with
  | nil => exact h
  | cons e tl ih => exact ih (step e s) (norm2_step e s h)

/-- Whenever fixed mode is off or no target quaternion is available, the
frame update reduces to the inertial/idle state machine. -/
lemma useFrameStep_inertial (isFixed : Bool) (lq : Option Quat) (delta : ℝ)
    (s : EarthState) (h : isFixed = false ∨ lq = none) :
    useFrameStep isFixed lq delta s =
      if s.isDragging then s
      else
        if velocityThreshold < s.angularVelocity.length then
          { s with
            quaternion := s.quaternion.premultiply
              (Quat.setFromAxisAngle s.angularVelocity.normalize
                (s.angularVelocity.length * delta)),
            angularVelocity := s.angularVelocity.multiplyScalar friction }
        else
          { s with quaternion := s.quaternion.premultiply (idleQuat delta) } := by
  rcases h with h | h
  · subst h
    rcases lq with _ | q <;> rfl
  · subst h
    rcases isFixed with _ | _ <;> rfl

lemma useFrameStep_dragState (isFixed : Bool) (lq : Option Quat) (delta : ℝ)
    (s : EarthState) :
    (useFrameStep isFixed lq delta s).isDragging = s.isDragging ∧
    (useFrameStep isFixed lq delta s).lastPointerPos = s.lastPointerPos := by
  rcases isFixed with _ | _ <;> rcases lq with _ | q
  · rw [useFrameStep_inertial _ _ _ _ (Or.inl rfl)]
    split_ifs <;> exact ⟨rfl, rfl⟩
  · rw [useFrameStep_inertial _ _ _ _ (Or.inl rfl)]
    split_ifs <;> exact ⟨rfl, rfl⟩
  · rw [useFrameStep_inertial _ _ _ _ (Or.inr rfl)]
    split_ifs <;> exact ⟨rfl, rfl⟩
  · exact ⟨rfl, rfl⟩

lemma step_fixed_dragState (e : EarthEvent) (he : eventFixed e = true)
    (s : EarthState) :
    (step e s).isDragging = s.isDragging ∧
    (step e s).lastPointerPos = s.lastPointerPos := by
  cases e with
  | pointerDown f cx cy =>
    rw [eventFixed] at he
    subst he
    exact ⟨rfl, rfl⟩
  | pointerMove f cx cy =>
    rw [eventFixed] at he
    subst he
    exact ⟨rfl, rfl⟩
  | pointerUp f =>
    rw [eventFixed] at he
    subst he
    exact ⟨rfl, rfl⟩
  | frame f tl loc delta =>
    exact useFrameStep_dragState _ _ _ _

lemma run_fixed_dragState (evs : List EarthEvent)
    (hevs : ∀ e ∈ evs, eventFixed e = true) (s : EarthState) :
    (run evs s).isDragging = s.isDragging ∧
    (run evs s).lastPointerPos = s.lastPointerPos := by
  induction evs generalizing s with
  | nil => exact ⟨rfl, rfl⟩
  | cons e tl ih =>
    have he := hevs e (List.mem_cons_self e tl)
    have htl : ∀ x ∈ tl, eventFixed x = true :=
      fun x hx => hevs x (List.mem_cons_of_mem e hx)
    obtain ⟨h1, h2⟩ := step_fixed_dragState e he s
    obtain ⟨h3, h4⟩ := ih htl (step e s)
    exact ⟨h3.trans h1, h4.trans h2⟩

lemma Vec3.length_normalize_scale (v : Vec3) (c : ℝ) (hc : c = v.length) :
    (v.normalize.multiplyScalar c).length = c := by
  rcases eq_or_ne v.length 0 with h0 | h0
  · rw [Vec3.length_multiplyScalar]
    have hn : v.normalize.length = 0 := by
      unfold Vec3.normalize Vec3.divideScalar
      rw [if_pos h0, Vec3.length_multiplyScalar, h0, mul_zero]
    rw [hn, mul_zero, hc, h0]
  · rw [Vec3.length_multiplyScalar, Vec3.length_normalize v h0, mul_one,
      abs_of_nonneg (by rw [hc]; exact v.length_nonneg)]

/-- Reduction of `onPointerMove` when a drag is active and not fixed. -/
lemma onPointerMove_active (cx cy lx ly : ℝ) (s : EarthState)
    (hdrag : s.isDragging = true) (hlast : s.lastPointerPos = some (lx, ly)) :
    onPointerMove false cx cy s =
      { s with
        quaternion := s.quaternion.premultiply
          (Quat.multiplyQuaternions
            (Quat.setFromAxisAngle ⟨0, 1, 0⟩ ((cx - lx) * sensitivity))
            (Quat.setFromAxisAngle ⟨1, 0, 0⟩ ((cy - ly) * sensitivity))),
        angularVelocity :=
          (Vec3.normalize ⟨(cx - lx) * sensitivity, (cy - ly) * sensitivity, 0⟩).multiplyScalar
            (Real.sqrt (((cy - ly) * sensitivity) * ((cy - ly) * sensitivity)
              + ((cx - lx) * sensitivity) * ((cx - lx) * sensitivity))),
        lastPointerPos := some (cx, cy) } := by
  unfold onPointerMove
  rw [hdrag, hlast]
  rfl

lemma Quat.setFromAxisAngle_zero (axis : Vec3) :
    Quat.setFromAxisAngle axis 0 = ⟨0, 0, 0, 1⟩ := by
  simp [Quat.setFromAxisAngle]

lemma Quat.identity_multiplyQuaternions (q : Quat) :
    Quat.multiplyQuaternions ⟨0, 0, 0, 1⟩ q = q := by
  simp [Quat.multiplyQuaternions]

/-- For unit quaternions, the three.js vector rotation of a product
quaternion is the composition of the rotations: `b` acts first, `a`
second. -/
lemma Vec3.applyQuaternion_multiplyQuaternions (v : Vec3) (a b : Quat)
    (ha : a.norm2 = 1) (hb : b.norm2 = 1) :
    v.applyQuaternion (Quat.multiplyQuaternions a b)
      = (v.applyQuaternion b).applyQuaternion a := by
  have ha' : a.x * a.x + a.y * a.y + a.z * a.z + a.w * a.w = 1 := ha
  have hb' : b.x * b.x + b.y * b.y + b.z * b.z + b.w * b.w = 1 := hb
  simp only [Vec3.applyQuaternion, Quat.multiplyQuaternions, Vec3.mk.injEq]
  refine ⟨?_, ?_, ?_⟩
  · linear_combination
      (((a.w * a.w + a.x * a.x - a.y * a.y - a.z * a.z) * v.x
          + 2 * (a.x * a.y - a.w * a.z) * v.y
          + 2 * (a.x * a.z + a.w * a.y) * v.z) - v.x) * hb' +
      (((b.w * b.w + b.x * b.x - b.y * b.y - b.z * b.z) * v.x
          + 2 * (b.x * b.y - b.w * b.z) * v.y
          + 2 * (b.x * b.z + b.w * b.y) * v.z)
        - 2 * (b.x * b.x + b.y * b.y + b.z * b.z + b.w * b.w) * v.x
        + v.x) * ha'
  · linear_combination
      ((2 * (a.x * a.y + a.w * a.z) * v.x
          + (a.w * a.w - a.x * a.x + a.y * a.y - a.z * a.z) * v.y
          + 2 * (a.y * a.z - a.w * a.x) * v.z) - v.y) * hb' +
      ((2 * (b.x * b.y + b.w * b.z) * v.x
          + (b.w * b.w - b.x * b.x + b.y * b.y - b.z * b.z) * v.y
          + 2 * (b.y * b.z - b.w * b.x) * v.z)
        - 2 * (b.x * b.x + b.y * b.y + b.z * b.z + b.w * b.w) * v.y
        + v.y) * ha'
  · linear_combination
      ((2 * (a.x * a.z - a.w * a.y) * v.x
          + 2 * (a.y * a.z + a.w * a.x) * v.y
          + (a.w * a.w - a.x * a.x - a.y * a.y + a.z * a.z) * v.z) - v.z) * hb' +
      ((2 * (b.x * b.z - b.w * b.y) * v.x
          + 2 * (b.y * b.z + b.w * b.x) * v.y
          + (b.w * b.w - b.x * b.x - b.y * b.y + b.z * b.z) * v.z)
        - 2 * (b.x * b.x + b.y * b.y + b.z * b.z + b.w * b.w) * v.z
        + v.z) * ha'

lemma arccos_anti {x y : ℝ} (h : x ≤ y) : Real.arccos y ≤ Real.arccos x := by
  unfold Real.arccos
  have := Real.monotone_arcsin h
  linarith

lemma atan2_bounds {y x : ℝ} (hx : 0 ≤ x) (hy : 0 < y) :
    0 < atan2 y x ∧ atan2 y x ≤ π / 2 := by
  rcases hx.eq_or_lt with h0 | hxpos
  · unfold atan2
    rw [if_neg (by linarith), if_neg (by linarith), if_pos hy]
    exact ⟨by positivity, le_refl _⟩
  · unfold atan2
    rw [if_pos hxpos]
    constructor
    · rw [← Real.arctan_zero]
      exact Real.arctan_strictMono (by positivity)
    · exact (Real.arctan_lt_pi_div_two _).le

/-- In the generic slerp branch with `t ∈ (0, 1]`, the angular error to
the target never increases: the new error is `(1 - t) θ ≤ θ`. -/
lemma slerpMain_err (qa qm qb : Quat) (c t : ℝ) (hm : qm.norm2 = 1) (hc : qa.dot qm = c) (hd0 : 0 ≤ c)
    (hsq : numberEpsilon < 1 - c * c) (ht0 : 0 < t) (ht1 : t ≤ 1)
    (hqm : qm = qb ∨ qm = ⟨-qb.x, -qb.y, -qb.z, -qb.w⟩)
    (habs : |qa.dot qb| = c) :
    Real.arccos |Quat.dot (Quat.mk
      (qa.x * (Real.sin ((1 - t) * atan2 (Real.sqrt (1 - c * c)) c) /
          Real.sqrt (1 - c * c))
        + qm.x * (Real.sin (t * atan2 (Real.sqrt (1 - c * c)) c) /
          Real.sqrt (1 - c * c)))
      (qa.y * (Real.sin ((1 - t) * atan2 (Real.sqrt (1 - c * c)) c) /
          Real.sqrt (1 - c * c))
        + qm.y * (Real.sin (t * atan2 (Real.sqrt (1 - c * c)) c) /
          Real.sqrt (1 - c * c)))
      (qa.z * (Real.sin ((1 - t) * atan2 (Real.sqrt (1 - c * c)) c) /
          Real.sqrt (1 - c * c))
        + qm.z * (Real.sin (t * atan2 (Real.sqrt (1 - c * c)) c) /
          Real.sqrt (1 - c * c)))
      (qa.w * (Real.sin ((1 - t) * atan2 (Real.sqrt (1 - c * c)) c) /
          Real.sqrt (1 - c * c))
        + qm.w * (Real.sin (t * atan2 (Real.sqrt (1 - c * c)) c) /
          Real.sqrt (1 - c * c)))) qb|
      ≤ Real.arccos |qa.dot qb| := by
  have heps := numberEpsilon_pos
  have hs2pos : 0 < 1 - c * c := heps.trans hsq
  set S := Real.sqrt (1 - c * c) with hS
  have hSpos : 0 < S := Real.sqrt_pos.mpr hs2pos
  have hS2 : S ^ 2 = 1 - c * c := Real.sq_sqrt hs2pos.le
  set θ := atan2 S c with hθ
  obtain ⟨hcos, hsin⟩ := atan2_cos_sin hd0 hSpos (by nlinarith)
  rw [← hθ] at hcos hsin
  obtain ⟨hθpos, hθle⟩ := atan2_bounds hd0 hSpos
  rw [← hθ] at hθpos hθle
  set rA := Real.sin ((1 - t) * θ) / S with hrA
  set rB := Real.sin (t * θ) / S with hrB
  have hdotm : Quat.dot (Quat.mk (qa.x * rA + qm.x * rB) (qa.y * rA + qm.y * rB)
      (qa.z * rA + qm.z * rB) (qa.w * rA + qm.w * rB)) qm
      = Real.cos ((1 - t) * θ) := by
    have expand : Quat.dot (Quat.mk (qa.x * rA + qm.x * rB)
        (qa.y * rA + qm.y * rB) (qa.z * rA + qm.z * rB)
        (qa.w * rA + qm.w * rB)) qm
        = rA * qa.dot qm + rB * qm.norm2 := by
      simp only [Quat.dot, Quat.norm2]
      ring
    rw [expand, hc, hm, hrA, hrB,
      show t * θ = θ - (1 - t) * θ by ring, Real.sin_sub, hcos, hsin]
    field_simp
    ring
  have habsdot : |Quat.dot (Quat.mk (qa.x * rA + qm.x * rB)
      (qa.y * rA + qm.y * rB) (qa.z * rA + qm.z * rB)
      (qa.w * rA + qm.w * rB)) qb|
      = |Real.cos ((1 - t) * θ)| := by
    rcases hqm with h | h
    · rw [← h, hdotm]
    · have hflip : Quat.dot (Quat.mk (qa.x * rA + qm.x * rB)
          (qa.y * rA + qm.y * rB) (qa.z * rA + qm.z * rB)
          (qa.w * rA + qm.w * rB)) qb
          = -(Quat.dot (Quat.mk (qa.x * rA + qm.x * rB)
              (qa.y * rA + qm.y * rB) (qa.z * rA + qm.z * rB)
              (qa.w * rA + qm.w * rB)) qm) := by
        rw [h]
        simp only [Quat.dot]
        ring
      rw [hflip, abs_neg, hdotm]
  rw [habsdot, habs]
  have hang0 : 0 ≤ (1 - t) * θ := mul_nonneg (by linarith) hθpos.le
  have hangle : (1 - t) * θ ≤ θ := by nlinarith
  have hcosnn : 0 ≤ Real.cos ((1 - t) * θ) :=
    Real.cos_nonneg_of_mem_Icc ⟨by linarith, by linarith⟩
  rw [abs_of_nonneg hcosnn,
    Real.arccos_cos hang0 (by linarith [Real.pi_pos]),
    show Real.arccos c = θ from by
      rw [← hcos]
      exact Real.arccos_cos hθpos.le (by linarith [Real.pi_pos])]
  exact hangle

/-- In the near-parallel (normalized lerp) slerp branch with
`t ∈ (0, 1]`, the angular error to the target never increases. -/
lemma slerpLerp_err (qa qm qb : Quat) (c t : ℝ) (ha : qa.norm2 = 1)
    (hm : qm.norm2 = 1) (hc : qa.dot qm = c) (hd0 : 0 ≤ c) (hd1 : c < 1)
    (ht0 : 0 < t) (ht1 : t ≤ 1)
    (hqm : qm = qb ∨ qm = ⟨-qb.x, -qb.y, -qb.z, -qb.w⟩)
    (habs : |qa.dot qb| = c) :
    Real.arccos |Quat.dot (Quat.normalize (Quat.mk ((1 - t) * qa.x + t * qm.x)
        ((1 - t) * qa.y + t * qm.y) ((1 - t) * qa.z + t * qm.z)
        ((1 - t) * qa.w + t * qm.w))) qb| ≤ Real.arccos |qa.dot qb| := by
  rw [habs]
  apply arccos_anti
  set v := Quat.mk ((1 - t) * qa.x + t * qm.x) ((1 - t) * qa.y + t * qm.y)
    ((1 - t) * qa.z + t * qm.z) ((1 - t) * qa.w + t * qm.w) with hv
  have hpos : 0 < v.norm2 :=
    Quat.norm2_lerp_pos qa qm t ha hm (by rw [hc]; exact hd0)
      (by rw [hc]; exact hd1) ht0.ne'
  have hlenpos : 0 < v.length := Real.sqrt_pos.mpr hpos
  have hlen2 : v.length ^ 2 = v.norm2 := Real.sq_sqrt hpos.le
  have hkey : c ≤ |Quat.dot (Quat.normalize v) qm| := by
    have hnormalize : Quat.normalize v
        = ⟨v.x * (1 / v.length), v.y * (1 / v.length), v.z * (1 / v.length),
           v.w * (1 / v.length)⟩ := by
      unfold Quat.normalize
      rw [if_neg (ne_of_gt hlenpos)]
    have hdot : Quat.dot (Quat.normalize v) qm
        = v.dot qm * (1 / v.length) := by
      rw [hnormalize]
      simp only [Quat.dot]
      ring
    have hvdot : v.dot qm = (1 - t) * c + t := by
      have expand : v.dot qm = (1 - t) * qa.dot qm + t * qm.norm2 := by
        rw [hv]
        simp only [Quat.dot, Quat.norm2]
        ring
      rw [expand, hc, hm]
      ring
    have hnum : 0 ≤ (1 - t) * c + t := by nlinarith
    have hn2 : v.norm2 = (1 - t) ^ 2 + 2 * t * (1 - t) * c + t ^ 2 := by
      have expand : v.norm2 = (1 - t) ^ 2 * qa.norm2
          + 2 * t * (1 - t) * qa.dot qm + t ^ 2 * qm.norm2 := by
        rw [hv]
        simp only [Quat.norm2, Quat.dot]
        ring
      rw [expand, ha, hm, hc]
      ring
    have hineq : c * v.length ≤ (1 - t) * c + t := by
      have h1 : 0 ≤ t * (1 - t) := mul_nonneg ht0.le (by linarith)
      have h2 : 0 ≤ 1 - c * c := by nlinarith
      have hfull : 0 ≤ (1 - c * c) * (2 * t * (1 - t) * c + t ^ 2) :=
        mul_nonneg h2 (by nlinarith [sq_nonneg t])
      have hsqle : (c * v.length) ^ 2 ≤ ((1 - t) * c + t) ^ 2 := by
        have : (c * v.length) ^ 2 = c ^ 2 * v.norm2 := by
          rw [mul_pow, hlen2]
        rw [this, hn2]
        nlinarith [hfull]
      have ha0 : 0 ≤ c * v.length := mul_nonneg hd0 hlenpos.le
      nlinarith [hsqle, hnum, ha0]
    rw [hdot, hvdot,
      abs_of_nonneg (mul_nonneg hnum (by positivity)),
      show ((1 - t) * c + t) * (1 / v.length) = ((1 - t) * c + t) / v.length
        from by ring, le_div_iff₀ hlenpos]
    exact hineq
  rcases hqm with h | h
  · rw [← h]
    exact hkey
  · have hflip : Quat.dot (Quat.normalize v) qb
        = -(Quat.dot (Quat.normalize v) qm) := by
      rw [h]
      simp only [Quat.dot]
      ring
    rw [hflip, abs_neg]
    exact hkey

/-- Through every branch of the three.js slerp with `t ∈ (0, 1]`, the
angular error to the target never increases. -/
lemma slerp_err_le (qa qb : Quat) (t : ℝ) (ha : qa.norm2 = 1)
    (hb : qb.norm2 = 1) (ht0 : 0 < t) (ht1 : t ≤ 1) :
    Real.arccos |(qa.slerp qb t).dot qb| ≤ Real.arccos |qa.dot qb| := by
  rcases eq_or_ne t 1 with h1 | h1
  · subst h1
    have hone : qa.slerp qb 1 = qb := by
      unfold Quat.slerp
      rw [if_neg (by norm_num), if_pos rfl]
    have hbb : Quat.dot qb qb = 1 := hb
    rw [hone, hbb, abs_one, Real.arccos_one]
    exact Real.arccos_nonneg _
  · have h0 : t ≠ 0 := ht0.ne'
    have hmneg : (Quat.mk (-qb.x) (-qb.y) (-qb.z) (-qb.w)).norm2 = 1 := by
      simp only [Quat.norm2] at hb ⊢
      linarith [hb]
    have hdneg : qa.dot (Quat.mk (-qb.x) (-qb.y) (-qb.z) (-qb.w))
        = -(qa.dot qb) := by
      simp only [Quat.dot]
      ring
    simp only [Quat.slerp, if_neg h0, if_neg h1]
    split_ifs with hneg hge heps hge2 heps2
    · exact le_refl _
    · exact slerpLerp_err qa ⟨-qb.x, -qb.y, -qb.z, -qb.w⟩ qb (-(qa.dot qb)) t
        ha hmneg hdneg (by linarith) (not_le.mp hge) ht0 ht1 (Or.inr rfl)
        (abs_of_neg hneg)
    · exact slerpMain_err qa ⟨-qb.x, -qb.y, -qb.z, -qb.w⟩ qb (-(qa.dot qb)) t
        hmneg hdneg (by linarith) (not_le.mp heps) ht0 ht1 (Or.inr rfl)
        (abs_of_neg hneg)
    · exact le_refl _
    · exact slerpLerp_err qa qb qb (qa.dot qb) t ha hb rfl (not_lt.mp hneg)
        (not_le.mp hge2) ht0 ht1 (Or.inl rfl) (abs_of_nonneg (not_lt.mp hneg))
    · exact slerpMain_err qa qb qb (qa.dot qb) t hb rfl (not_lt.mp hneg)
        (not_le.mp heps2) ht0 ht1 (Or.inl rfl) (abs_of_nonneg (not_lt.mp hneg))

/-- A non-fixed tick with no drag and speed at or below the threshold
applies exactly the idle rotation. -/
lemma useFrameStep_idle (lq : Option Quat) (delta : ℝ) (s : EarthState)
    (hdrag : s.isDragging = false)
    (hsp : s.angularVelocity.length ≤ velocityThreshold) :
    useFrameStep false lq delta s
      = { s with quaternion := s.quaternion.premultiply (idleQuat delta) } := by
  rw [useFrameStep_inertial _ _ _ _ (Or.inl rfl), hdrag]
  simp only [Bool.false_eq_true, if_false]
  rw [if_neg (not_lt.mpr hsp)]

/-! ## Claim theorems -/

/-- C1: For every sequence of per-frame ticks and pointer drag events,
the Orientation quaternion remains unit length after every mutation:
running any stimulus sequence from the component's initial state (and
hence stopping after any prefix, i.e. after any mutation) leaves the
orientation with squared norm exactly 1, because each update composes it
only with unit rotations (axis-angle quaternions, rotation-matrix
quaternions, or slerp results). -/
theorem C1_orientation_always_unit (evs : List EarthEvent) :
    (run evs initialState).quaternion.norm2 = 1 :=
  norm2_run evs initialState axisRotation_norm2

/-- C2 (counterexample): the claim says a local hour of exactly 6 with no
location and `forceNight = false` yields day, but the source computes
`hour <= 6 || hour >= 18`, so hour 6 yields night. -/
theorem C2_hour_six_is_night : isNightTime none 6 false = true := by
  rfl

/-- C2 (amended): with no location known, the fallback day/night flag
reports night exactly for local hours at/before 6 or at/after 18: hour 3
yields night, hour 12 yields day, and hour exactly 6 yields night. -/
theorem C2_fallback_night_iff (hour : ℕ) (sun : Bool) :
    (isNightTime none hour sun = true ↔ (hour ≤ 6 ∨ 18 ≤ hour)) ∧
    isNightTime none 3 sun = true ∧ isNightTime none 12 sun = false ∧
    isNightTime none 6 sun = true := by
  refine ⟨?_, rfl, rfl, rfl⟩
  simp [isNightTime]

/-- C5: for every location state and every clock reading (and every
SunCalc comparison), when `forceNightTime` is true the texture-selection
boolean consumed by the renderer is night. -/
theorem C5_forceNight_always_night (loc : Option Location) (hour : ℕ)
    (sun : Bool) : textureIsNight (isNightTime loc hour sun) true = true := by
  simp [textureIsNight]

/-- C6: after a pointer down delivered with `isFixed` false, if every
subsequent stimulus is delivered with `isFixed` true, the drag state
stays stuck: the fixed-mode guards ignore every move/up event (and frame
ticks never touch the drag state), so `isDragging` remains true and
`lastPointerPos` remains the recorded down position — the controller
itself never clears the stuck drag state. -/
theorem C6_stuck_drag (cx cy : ℝ) (s : EarthState) (evs : List EarthEvent)
    (hevs : ∀ e ∈ evs, eventFixed e = true) :
    (run evs (onPointerDown false cx cy s)).isDragging = true ∧
    (run evs (onPointerDown false cx cy s)).lastPointerPos = some (cx, cy) := by
  obtain ⟨h1, h2⟩ := run_fixed_dragState evs hevs (onPointerDown false cx cy s)
  exact ⟨h1.trans rfl, h2.trans rfl⟩

/-- Witness for C6 at a concrete stuck-drag scenario: a drag starts at
(1, 2) with fixed mode off, fixed mode turns on, and a move, an up and a
frame tick delivered under fixed mode leave the drag state active. -/
theorem C6_stuck_drag_witness :
    (∀ e ∈ [EarthEvent.pointerMove true 5 6, EarthEvent.pointerUp true,
        EarthEvent.frame true none none 1], eventFixed e = true) ∧
    ((run [EarthEvent.pointerMove true 5 6, EarthEvent.pointerUp true,
        EarthEvent.frame true none none 1]
        (onPointerDown false 1 2 initialState)).isDragging = true ∧
      (run [EarthEvent.pointerMove true 5 6, EarthEvent.pointerUp true,
        EarthEvent.frame true none none 1]
        (onPointerDown false 1 2 initialState)).lastPointerPos
        = some (1, 2)) :=
  ⟨by
    intro e he
    fin_cases he <;> rfl,
   C6_stuck_drag 1 2 initialState _ (by
    intro e he
    fin_cases he <;> rfl)⟩

/-- C7: the fixed-mode target coordinate is the externally supplied
target location when present, else the fetched device location; with
neither available the target quaternion memo is `none` and a fixed-mode
tick behaves exactly as the inertial/idle branch (the same update as
with `isFixed` false), with no error raised. -/
theorem C7_fixed_target_fallback (t l : Location) (loc : Option Location)
    (delta : ℝ) (s : EarthState) :
    locationQuaternion (some t) loc
        = some (Quat.setFromEulerXYZ (degToRad (-(69 - t.latitude)))
            (degToRad (-t.longitude - 88)) (degToRad 0)) ∧
    locationQuaternion none (some l)
        = some (Quat.setFromEulerXYZ (degToRad (-(69 - l.latitude)))
            (degToRad (-l.longitude - 88)) (degToRad 0)) ∧
    locationQuaternion none none = none ∧
    useFrameStep true none delta s = useFrameStep false none delta s :=
  ⟨rfl, rfl, rfl, rfl⟩

/-- C8: on every pointer move processed while dragging, the angular
velocity is overwritten (independently of its previous value) with the
vector `(horizontalAngle, verticalAngle, 0)` normalized and rescaled by
`sqrt(angleX² + angleY²)` from that single move's screen delta, and its
resulting magnitude equals that `sqrt`. -/
theorem C8_velocity_from_single_move (cx cy lx ly : ℝ) (s : EarthState)
    (hdrag : s.isDragging = true) (hlast : s.lastPointerPos = some (lx, ly)) :
    (onPointerMove false cx cy s).angularVelocity
        = (Vec3.normalize
            ⟨(cx - lx) * sensitivity, (cy - ly) * sensitivity, 0⟩).multiplyScalar
            (Real.sqrt (((cy - ly) * sensitivity) * ((cy - ly) * sensitivity)
              + ((cx - lx) * sensitivity) * ((cx - lx) * sensitivity))) ∧
    (onPointerMove false cx cy s).angularVelocity.length
        = Real.sqrt (((cy - ly) * sensitivity) * ((cy - ly) * sensitivity)
            + ((cx - lx) * sensitivity) * ((cx - lx) * sensitivity)) ∧
    ∀ v : Vec3,
      (onPointerMove false cx cy
          { s with angularVelocity := v }).angularVelocity
        = (onPointerMove false cx cy s).angularVelocity := by
  have hmove := onPointerMove_active cx cy lx ly s hdrag hlast
  refine ⟨by rw [hmove], ?_, ?_⟩
  · rw [hmove]
    apply Vec3.length_normalize_scale
    unfold Vec3.length
    apply congrArg
    ring
  · intro v
    rw [onPointerMove_active cx cy lx ly { s with angularVelocity := v }
        hdrag hlast, hmove]

/-- Witness for C8 at a concrete drag step from (0,0) to (10,0). -/
theorem C8_witness :
    (onPointerMove false 10 0
        ⟨⟨0, 0, 0, 1⟩, true, some (0, 0), ⟨0, 0, 0⟩⟩).angularVelocity.length
      = Real.sqrt (((0 - 0) * sensitivity) * ((0 - 0) * sensitivity)
          + ((10 - 0) * sensitivity) * ((10 - 0) * sensitivity)) :=
  (C8_velocity_from_single_move 10 0 0 0 _ rfl rfl).2.1

/-- C9: on every pointer move processed while dragging, the incremental
rotation left-multiplied (pre-multiplied, world space) onto the
orientation is `qY * qX`, the composition in which the rotation `qX`
about the viewer's horizontal axis (from the vertical screen delta) acts
first and the rotation `qY` about the vertical axis (from the horizontal
screen delta) acts second: applying the product to any vector applies
`qX` first and `qY` second. -/
theorem C9_drag_rotation_composition (cx cy lx ly : ℝ) (s : EarthState)
    (hdrag : s.isDragging = true) (hlast : s.lastPointerPos = some (lx, ly)) :
    (onPointerMove false cx cy s).quaternion
        = Quat.multiplyQuaternions
            (Quat.multiplyQuaternions
              (Quat.setFromAxisAngle ⟨0, 1, 0⟩ ((cx - lx) * sensitivity))
              (Quat.setFromAxisAngle ⟨1, 0, 0⟩ ((cy - ly) * sensitivity)))
            s.quaternion ∧
    ∀ v : Vec3,
      v.applyQuaternion
          (Quat.multiplyQuaternions
            (Quat.setFromAxisAngle ⟨0, 1, 0⟩ ((cx - lx) * sensitivity))
            (Quat.setFromAxisAngle ⟨1, 0, 0⟩ ((cy - ly) * sensitivity)))
        = (v.applyQuaternion
            (Quat.setFromAxisAngle ⟨1, 0, 0⟩
              ((cy - ly) * sensitivity))).applyQuaternion
            (Quat.setFromAxisAngle ⟨0, 1, 0⟩ ((cx - lx) * sensitivity)) := by
  constructor
  · rw [onPointerMove_active cx cy lx ly s hdrag hlast]
    rfl
  · intro v
    exact v.applyQuaternion_multiplyQuaternions _ _
      (Quat.norm2_setFromAxisAngle _ _ (by norm_num))
      (Quat.norm2_setFromAxisAngle _ _ (by norm_num))

/-- Witness for C9 at a concrete drag step from (0,0) to (10,20). -/
theorem C9_witness :
    (onPointerMove false 10 20
        ⟨⟨0, 0, 0, 1⟩, true, some (0, 0), ⟨0, 0, 0⟩⟩).quaternion
      = Quat.multiplyQuaternions
          (Quat.multiplyQuaternions
            (Quat.setFromAxisAngle ⟨0, 1, 0⟩ ((10 - 0) * sensitivity))
            (Quat.setFromAxisAngle ⟨1, 0, 0⟩ ((20 - 0) * sensitivity)))
          (⟨0, 0, 0, 1⟩ : Quat) :=
  (C9_drag_rotation_composition 10 20 0 0 _ rfl rfl).1

/-- C10: a pointer move processed while dragging whose position equals
the recorded last pointer position leaves the orientation unchanged (the
incremental rotation is the identity) but zeroes the angular velocity,
cancelling any residual spin; hence after the release the next tick runs
the idle branch exactly. -/
theorem C10_stationary_move_kills_inertia (px py : ℝ) (s : EarthState)
    (tgt : Option Quat) (delta : ℝ)
    (hdrag : s.isDragging = true) (hlast : s.lastPointerPos = some (px, py)) :
    (onPointerMove false px py s).quaternion = s.quaternion ∧
    (onPointerMove false px py s).angularVelocity = ⟨0, 0, 0⟩ ∧
    useFrameStep false tgt delta
        (onPointerUp false (onPointerMove false px py s))
      = { onPointerUp false (onPointerMove false px py s) with
          quaternion :=
            (onPointerUp false
              (onPointerMove false px py s)).quaternion.premultiply
              (idleQuat delta) } := by
  have hmove := onPointerMove_active px py px py s hdrag hlast
  have hangx : (px - px) * sensitivity = 0 := by ring
  have hangy : (py - py) * sensitivity = 0 := by ring
  have hquat : (onPointerMove false px py s).quaternion = s.quaternion := by
    rw [hmove]
    show s.quaternion.premultiply _ = s.quaternion
    rw [hangx, hangy, Quat.setFromAxisAngle_zero, Quat.setFromAxisAngle_zero,
      Quat.premultiply, Quat.identity_multiplyQuaternions,
      Quat.identity_multiplyQuaternions]
  have hvel : (onPointerMove false px py s).angularVelocity = ⟨0, 0, 0⟩ := by
    rw [hmove]
    show Vec3.multiplyScalar _ _ = _
    rw [hangx, hangy]
    norm_num [Vec3.multiplyScalar]
  refine ⟨hquat, hvel, ?_⟩
  have hv2 : (onPointerUp false (onPointerMove false px py s)).angularVelocity
      = ⟨0, 0, 0⟩ := hvel
  have hlen : (⟨0, 0, 0⟩ : Vec3).length = 0 := by
    unfold Vec3.length
    norm_num
  exact useFrameStep_idle tgt delta _ rfl (by
    rw [hv2, hlen]
    unfold velocityThreshold
    norm_num)

/-- Witness for C10: a stationary move at (3,4) during a drag with
residual spin `(0,0,1/2)` zeroes the angular velocity. -/
theorem C10_witness :
    (onPointerMove false 3 4
        ⟨⟨0, 0, 0, 1⟩, true, some (3, 4), ⟨0, 0, 1/2⟩⟩).angularVelocity
      = ⟨0, 0, 0⟩ :=
  (C10_stationary_move_kills_inertia 3 4 _ none 1 rfl rfl).2.1

/-- C4: on a non-fixed tick with no active drag, if the angular speed
exceeds the threshold 0.001 the orientation is premultiplied by the
axis-angle rotation about the normalized velocity by `speed * delta`,
the velocity is multiplied by the friction factor 0.98 so that the new
speed is exactly `friction * speed` and strictly smaller; once the speed
is at or below the threshold, the tick applies exactly the constant idle
rotation instead. -/
theorem C4_friction_decay (lq : Option Quat) (delta : ℝ) (s : EarthState)
    (hdrag : s.isDragging = false) :
    (velocityThreshold < s.angularVelocity.length →
      (useFrameStep false lq delta s).quaternion
          = s.quaternion.premultiply
              (Quat.setFromAxisAngle s.angularVelocity.normalize
                (s.angularVelocity.length * delta)) ∧
      (useFrameStep false lq delta s).angularVelocity
          = s.angularVelocity.multiplyScalar friction ∧
      (useFrameStep false lq delta s).angularVelocity.length
          = friction * s.angularVelocity.length ∧
      (useFrameStep false lq delta s).angularVelocity.length
          < s.angularVelocity.length) ∧
    (s.angularVelocity.length ≤ velocityThreshold →
      useFrameStep false lq delta s
        = { s with quaternion := s.quaternion.premultiply (idleQuat delta) }) := by
  rw [useFrameStep_inertial _ _ _ _ (Or.inl rfl), hdrag]
  simp only [Bool.false_eq_true, if_false]
  constructor
  · intro hsp
    rw [if_pos hsp]
    have hL : 0 < s.angularVelocity.length := by
      have : (0 : ℝ) < velocityThreshold := by
        unfold velocityThreshold
        norm_num
      linarith
    have hlen : (s.angularVelocity.multiplyScalar friction).length
        = friction * s.angularVelocity.length := by
      rw [Vec3.length_multiplyScalar, abs_of_pos (by unfold friction; norm_num),
        mul_comm]
    refine ⟨rfl, rfl, hlen, ?_⟩
    rw [hlen]
    unfold friction
    nlinarith
  · intro hsp
    rw [if_neg (not_lt.mpr hsp)]

/-- Witness for C4: a free state with residual angular velocity (0,0,1)
of speed 1 (above the threshold) decays exactly by the friction factor. -/
theorem C4_witness :
    (useFrameStep false none 1
        ⟨⟨0, 0, 0, 1⟩, false, none, ⟨0, 0, 1⟩⟩).angularVelocity.length
      < (⟨⟨0, 0, 0, 1⟩, false, none,
          ⟨0, 0, 1⟩⟩ : EarthState).angularVelocity.length :=
  ((C4_friction_decay none 1 _ rfl).1 (by
    unfold velocityThreshold Vec3.length
    norm_num)).2.2.2

/-- C3 (counterexample): the claim asserts that every tick with positive
delta reduces the angular distance to the target and never increases it,
but a fixed-mode tick with `delta = 5/2` (so `t = delta * transitionSpeed
= 5/2 > 1`) slerp-extrapolates past the target: from the identity
orientation and the unit target `(√3/2, 0, 0, 1/2)` (angular distance
π/3), the tick produces an orientation at angular distance π/2 from the
target — the error increases. -/
theorem C3_overshoot_counterexample :
    angularError (⟨0, 0, 0, 1⟩ : Quat)
        ⟨Real.sqrt 3 / 2, 0, 0, 1/2⟩
      < angularError (useFrameStep true (some ⟨Real.sqrt 3 / 2, 0, 0, 1/2⟩)
          (5/2) ⟨⟨0, 0, 0, 1⟩, false, none, ⟨0, 0, 0⟩⟩).quaternion
        ⟨Real.sqrt 3 / 2, 0, 0, 1/2⟩ := by
  have h3 : Real.sqrt 3 ^ 2 = 3 := Real.sq_sqrt (by norm_num)
  have h3pos : 0 < Real.sqrt 3 := Real.sqrt_pos.mpr (by norm_num)
  have hdot : (⟨0, 0, 0, 1⟩ : Quat).dot ⟨Real.sqrt 3 / 2, 0, 0, 1/2⟩
      = 1/2 := by
    simp only [Quat.dot]
    ring
  have hstep : (useFrameStep true (some ⟨Real.sqrt 3 / 2, 0, 0, 1/2⟩)
      (5/2) ⟨⟨0, 0, 0, 1⟩, false, none, ⟨0, 0, 0⟩⟩).quaternion
      = Quat.slerp ⟨0, 0, 0, 1⟩ ⟨Real.sqrt 3 / 2, 0, 0, 1/2⟩
          (5/2 * transitionSpeed) := rfl
  have ht : (5/2 : ℝ) * transitionSpeed = 5/2 := by
    unfold transitionSpeed
    norm_num
  have hsq34 : Real.sqrt (1 - 1/2 * (1/2)) = Real.sqrt 3 / 2 := by
    rw [show (1 : ℝ) - 1/2 * (1/2) = 3/4 by norm_num,
      show (3 : ℝ)/4 = (Real.sqrt 3 / 2) ^ 2 by
        rw [div_pow, h3]
        norm_num,
      Real.sqrt_sq (by positivity)]
  have hatan : atan2 (Real.sqrt 3 / 2) (1/2) = π/3 := by
    unfold atan2
    rw [if_pos (show (0:ℝ) < 1/2 by norm_num),
      show Real.sqrt 3 / 2 / ((1:ℝ)/2) = Real.sqrt 3 by field_simp,
      ← Real.tan_pi_div_three]
    exact Real.arctan_tan (by linarith [Real.pi_pos]) (by linarith [Real.pi_pos])
  have hslerp : Quat.slerp ⟨0, 0, 0, 1⟩ ⟨Real.sqrt 3 / 2, 0, 0, 1/2⟩ (5/2)
      = ⟨1/2, 0, 0, -(Real.sqrt 3 / 2)⟩ := by
    simp only [Quat.slerp]
    rw [if_neg (show (5/2 : ℝ) ≠ 0 by norm_num),
      if_neg (show (5/2 : ℝ) ≠ 1 by norm_num)]
    rw [hdot]
    simp only [if_neg (show ¬((1:ℝ)/2 < 0) by norm_num)]
    rw [if_neg (show ¬(1 ≤ (1:ℝ)/2) by norm_num),
      if_neg (show ¬((1:ℝ) - 1/2 * (1/2) ≤ numberEpsilon) by
        unfold numberEpsilon
        norm_num),
      hsq34, hatan,
      show ((1:ℝ) - 5/2) * (π/3) = -(π/2) by ring,
      show ((5:ℝ)/2) * (π/3) = π - π/6 by ring,
      Real.sin_neg, Real.sin_pi_div_two, Real.sin_pi_sub, Real.sin_pi_div_six]
    simp only [Quat.mk.injEq]
    refine ⟨?_, ?_, ?_, ?_⟩
    · field_simp
      ring
    · ring
    · ring
    · field_simp
      linear_combination 2 * Real.sqrt 3 * h3
  have herrafter : angularError (⟨1/2, 0, 0, -(Real.sqrt 3 / 2)⟩ : Quat)
      ⟨Real.sqrt 3 / 2, 0, 0, 1/2⟩ = π/2 := by
    unfold angularError
    rw [show Quat.dot ⟨1/2, 0, 0, -(Real.sqrt 3 / 2)⟩
        ⟨Real.sqrt 3 / 2, 0, 0, 1/2⟩ = 0 from by
      simp only [Quat.dot]
      ring]
    rw [abs_zero, Real.arccos_zero]
  have herrbefore : angularError (⟨0, 0, 0, 1⟩ : Quat)
      ⟨Real.sqrt 3 / 2, 0, 0, 1/2⟩ = π/3 := by
    unfold angularError
    rw [hdot, abs_of_pos (by norm_num), ← Real.cos_pi_div_three,
      Real.arccos_cos (by positivity) (by linarith [Real.pi_pos])]
  rw [hstep, ht, hslerp, herrafter, herrbefore]
  linarith [Real.pi_pos]

/-- C3 (amended): in fixed mode with a unit target available, a tick
whose interpolation parameter `delta * transitionSpeed` lies in (0, 1]
never increases the angular distance between the (unit) Orientation and
the target quaternion — slerp stays on the arc toward the target and
does not overshoot.  (For `delta * transitionSpeed > 1` the three.js
slerp extrapolates past the target and the error can grow, and once the
orientation equals the target the distance stays 0 rather than strictly
decreasing, so the original strict monotone-decrease claim for all
positive delta is false.) -/
theorem C3_fixed_slerp_no_overshoot (q : Quat) (delta : ℝ) (s : EarthState)
    (hq : s.quaternion.norm2 = 1) (hqt : q.norm2 = 1)
    (h0 : 0 < delta) (h1 : delta * transitionSpeed ≤ 1) :
    angularError (useFrameStep true (some q) delta s).quaternion q
      ≤ angularError s.quaternion q := by
  have hstep : (useFrameStep true (some q) delta s).quaternion
      = s.quaternion.slerp q (delta * transitionSpeed) := rfl
  rw [hstep]
  unfold angularError
  exact slerp_err_le _ _ _ hq hqt (by
    unfold transitionSpeed
    norm_num
    exact h0) h1

/-- Witness for the amended C3: a half-second tick toward the identity
target from the initial state. -/
theorem C3_witness :
    angularError (useFrameStep true (some ⟨0, 0, 0, 1⟩) (1/2)
        initialState).quaternion ⟨0, 0, 0, 1⟩
      ≤ angularError initialState.quaternion ⟨0, 0, 0, 1⟩ :=
  C3_fixed_slerp_no_overshoot ⟨0, 0, 0, 1⟩ (1/2) initialState
    axisRotation_norm2 (by norm_num [Quat.norm2]) (by norm_num)
    (by
      unfold transitionSpeed
      norm_num)

end

end EarthModel
